import Mathlib

/-!
Verification of the outbound HTTP client message writer
(`src/client/writer.rs`): encoder selection (`content_encoder`,
`streaming_encoding`), the writer state machine (`HttpClientWriter`:
`start`, `write`, `write_eof`, `poll_completed`/`write_to_stream`,
`disconnected`, `keepalive`, `set_buffer_capacity`).

Shallow embedding conventions:
- bytes are `List Nat` (byte values);
- the reference-counted shared output buffer is threaded explicitly
  through the encoder stages as plain state (a `List Nat` field of the
  writer), which is observationally equivalent for a single-threaded
  pipeline;
- the external compression crates (flate2 / brotli2) are abstracted by a
  `Codecs` parameter giving the bytes each codec emits;
- the thread-local date cache is an explicit `date : List Nat` argument
  to `start`;
- logging (`error!`) is modelled by an explicit list of `LogEvent`s
  returned from the selector.
-/

namespace CW

/-- The four transport versions of the `http` crate's `Version` used by the
writer (`Version::HTTP_09 | HTTP_10 | HTTP_11 | HTTP_2`). -/
inductive Version where
  | HTTP_09
  | HTTP_10
  | HTTP_11
  | HTTP_2
deriving DecidableEq, Repr

/-- Debug rendering of a version, as used by `write!(buffer, "{:?}", version)`
in the request line. -/
def Version.render : Version → String
  | .HTTP_09 => "HTTP/0.9"
  | .HTTP_10 => "HTTP/1.0"
  | .HTTP_11 => "HTTP/1.1"
  | .HTTP_2 => "HTTP/2.0"

/-- Requested content encoding (`headers::ContentEncoding`). -/
inductive ContentEncoding where
  | Identity
  | Deflate
  | Gzip
  | Br
  | Auto
deriving DecidableEq, Repr

/-- Modelled from the spec: `ContentEncoding::is_compression` — the
compression kinds are Deflate, Gzip and Br; Identity and Auto are not
(spec §3/§4.1: "if requested encoding is a compression kind").
(`headers.rs` is not part of the sources under verification.) -/
def ContentEncoding.is_compression : ContentEncoding → Bool
  | .Deflate | .Gzip | .Br => true
  | .Identity | .Auto => false

/-- Modelled from the spec: `ContentEncoding::as_str`, the header value
written for `Content-Encoding` (spec §4.1: "set `Content-Encoding` to the
chosen algorithm"). -/
def ContentEncoding.as_str : ContentEncoding → String
  | .Br => "br"
  | .Gzip => "gzip"
  | .Deflate => "deflate"
  | .Identity | .Auto => "identity"

/-- Request body variants (`body::Body`).  The streams carried by
`Streaming`/`Actor` are opaque to the writer (it only matches on the tag),
so they carry no payload here. -/
inductive Body where
  | Empty
  | Binary (bytes : List Nat)
  | Streaming
  | Actor
deriving DecidableEq, Repr

def Body.is_binary : Body → Bool
  | .Binary _ => true
  | _ => false

/-- Events sent to the logging sink (`error!` calls in `writer.rs`). -/
inductive LogEvent where
  | illegalContentLength (value : String)
  | upgradeForbiddenHttp2
deriving DecidableEq, Repr

/-- Error taxonomy of the writer (spec §7); `other` covers
`io::Error::new(io::ErrorKind::Other, msg)`. -/
inductive IOErr where
  | incompleteBody
  | overlongBody
  | transport (code : Nat)
  | other (msg : String)
deriving DecidableEq, Repr

/-- `server::WriterState`, the backpressure signal returned by `write`. -/
inductive WriterState where
  | Done
  | Pause
deriving DecidableEq, Repr

/-- Result of `poll_completed`: `Async::Ready(())` or `Async::NotReady`. -/
inductive PollState where
  | ready
  | notReady
deriving DecidableEq, Repr

/- ---------------- header map ---------------- -/

/-- The request's header map, keyed by the (lowercase) header name.
`http::HeaderMap` keys are case-insensitive and always lowercase; values
are modelled as strings (`HeaderValue::to_str` failure on non-ASCII bytes
merges with the parse-failure branch it guards). -/
abbrev Headers := List (String × String)

def CONTENT_LENGTH : String := "content-length"
def CONTENT_ENCODING : String := "content-encoding"
def TRANSFER_ENCODING : String := "transfer-encoding"
def CONNECTION : String := "connection"
def DATE : String := "date"

/-- `HeaderMap::remove`: drop every entry with the given name. -/
def hRemove : Headers → String → Headers
  | [], _ => []
  | p :: rest, k => if p.1 = k then hRemove rest k else p :: hRemove rest k

/-- `HeaderMap::get`: first value associated with the name. -/
def hGet : Headers → String → Option String
  | [], _ => none
  | p :: rest, k => if p.1 = k then some p.2 else hGet rest k

/-- `HeaderMap::contains_key`. -/
def hContains (m : Headers) (k : String) : Bool :=
  (hGet m k).isSome

/-- `HeaderMap::insert`: replace all entries with the given name by the
single new one (entry order is irrelevant to every property proved here). -/
def hInsert (m : Headers) (k v : String) : Headers :=
  hRemove m k ++ [(k, v)]

/- ---------------- integer parsing ---------------- -/

/-- Rust's `str::parse::<u64>`: an optional leading `+`, then one or more
ASCII digits, rejecting empty digit strings and values ≥ 2^64. -/
def parseU64 (s : String) : Option Nat :=
  let cs := s.data
  let ds := if cs.head? = some '+' then cs.tail else cs
  if ds.isEmpty then none
  else if ds.all Char.isDigit then
    let n := ds.foldl (fun a c => a * 10 + (c.toNat - 48)) 0
    if n < 2 ^ 64 then some n else none
  else none

/- ---------------- transfer framer ---------------- -/

def CRLF : List Nat := [13, 10]

def strBytes (s : String) : List Nat :=
  s.data.map Char.toNat

/-- Hex rendering of a chunk size for chunked framing. -/
def hexBytes (n : Nat) : List Nat :=
  (Nat.toDigits 16 n).map Char.toNat

/-- Modelled from the spec: the Transfer Framer (`server::encoding::
TransferEncoding`, not among the sources under verification), spec §4.3.
`chunked` carries whether the `0\r\n\r\n` terminator has been emitted;
`length` carries the remaining byte budget; `eof` is passthrough. -/
inductive TransferKind where
  | eof
  | length (remaining : Nat)
  | chunked (eofEmitted : Bool)
deriving DecidableEq, Repr

/-- Modelled from the spec (§4.3): framer write.  The buffer is threaded
explicitly.  `Chunked` emits `"<hex-length>\r\n" ++ bytes ++ "\r\n"` for a
non-empty chunk; `Length` decrements and fails with an overlong-body error
when the write would drive `remaining` negative; `Eof` is passthrough. -/
def TransferKind.writeB : TransferKind → List Nat → List Nat →
    Except IOErr (TransferKind × List Nat)
  | .eof, buf, bytes => .ok (.eof, buf ++ bytes)
  | .length r, buf, bytes =>
      if bytes.length ≤ r then .ok (.length (r - bytes.length), buf ++ bytes)
      else .error .overlongBody
  | .chunked e, buf, bytes =>
      if bytes.isEmpty then .ok (.chunked e, buf)
      else .ok (.chunked e, buf ++ hexBytes bytes.length ++ CRLF ++ bytes ++ CRLF)

/-- Modelled from the spec (§4.3): framer finalization.  `Length` fails
with an incomplete-body error when `remaining ≠ 0`; `Chunked` emits the
`0\r\n\r\n` terminator. -/
def TransferKind.writeEofB : TransferKind → List Nat →
    Except IOErr (TransferKind × List Nat)
  | .eof, buf => .ok (.eof, buf)
  | .length r, buf =>
      if r = 0 then .ok (.length 0, buf) else .error .incompleteBody
  | .chunked _, buf => .ok (.chunked true, buf ++ strBytes "0\r\n\r\n")

/-- Modelled from the spec (§4.3): `is_eof` of the framer. -/
def TransferKind.isEofB : TransferKind → Bool
  | .eof => true
  | .length r => r = 0
  | .chunked e => e

/- ---------------- content encoder ---------------- -/

/-- Modelled from the spec (§4.2): the Content Encoder
(`server::encoding::ContentEncoder`, not among the sources under
verification).  `identity` passes bytes through verbatim; `codec`
abstracts the external deflate/gzip/brotli writers by the bytes they emit
per chunk (`transform`) and on finalization (`trailer`). -/
inductive ContentEncoder where
  | identity (sink : TransferKind)
  | codec (kind : ContentEncoding) (transform : List Nat → List Nat)
      (trailer : List Nat) (sink : TransferKind)

def ContentEncoder.sink : ContentEncoder → TransferKind
  | .identity t => t
  | .codec _ _ _ t => t

def ContentEncoder.isIdentity : ContentEncoder → Bool
  | .identity _ => true
  | .codec _ _ _ _ => false

/-- Modelled from the spec (§4.2): encoder write — Identity passes bytes
verbatim into the sink, a codec passes the bytes it emits for the chunk. -/
def ContentEncoder.writeB : ContentEncoder → List Nat → List Nat →
    Except IOErr (ContentEncoder × List Nat)
  | .identity t, buf, bytes =>
      match t.writeB buf bytes with
      | .ok (t', buf') => .ok (.identity t', buf')
      | .error e => .error e
  | .codec k f tr t, buf, bytes =>
      match t.writeB buf (f bytes) with
      | .ok (t', buf') => .ok (.codec k f tr t', buf')
      | .error e => .error e

/-- Modelled from the spec (§4.2): encoder finalization — flush the codec
trailer, then finalize the sink's own termination. -/
def ContentEncoder.writeEofB : ContentEncoder → List Nat →
    Except IOErr (ContentEncoder × List Nat)
  | .identity t, buf =>
      match t.writeEofB buf with
      | .ok (t', buf') => .ok (.identity t', buf')
      | .error e => .error e
  | .codec k f tr t, buf =>
      match t.writeB buf tr with
      | .ok (t', buf') =>
        match t'.writeEofB buf' with
        | .ok (t'', buf'') => .ok (.codec k f tr t'', buf'')
        | .error e => .error e
      | .error e => .error e

/-- Modelled from the spec (§4.2): `is_eof` — "true only once the sink
confirms no further bytes are owed". -/
def ContentEncoder.isEof : ContentEncoder → Bool
  | .identity t => t.isEofB
  | .codec _ _ _ t => t.isEofB

/-- Behaviour of the external compression crates, abstracted:
`run` is the whole-body synchronous compression performed in the Binary
branch of `content_encoder` (the bytes landing in the scratch buffer,
plus whether the codec reported an error — which the source discards);
`transform`/`trailer` describe the per-chunk and finalization output of a
streaming codec. -/
structure Codecs where
  run : ContentEncoding → List Nat → List Nat × Bool
  transform : ContentEncoding → List Nat → List Nat
  trailer : ContentEncoding → List Nat

/-- The final `match encoding` of `content_encoder`: wrap the chosen
transfer framer in the encoder for the working encoding (Identity and Auto
both yield `ContentEncoder::Identity`). -/
def mkEncoder (cs : Codecs) (enc : ContentEncoding) (t : TransferKind) :
    ContentEncoder :=
  match enc with
  | .Deflate => .codec .Deflate (cs.transform .Deflate) (cs.trailer .Deflate) t
  | .Gzip => .codec .Gzip (cs.transform .Gzip) (cs.trailer .Gzip) t
  | .Br => .codec .Br (cs.transform .Br) (cs.trailer .Br) t
  | .Identity | .Auto => .identity t

/- ---------------- client request ---------------- -/

/-- The outgoing request as seen by the writer (`client::ClientRequest`
accessors used in `writer.rs`). -/
structure ClientRequest where
  method : String
  path : String
  version : Version
  headers : Headers
  body : Body
  upgrade : Bool
  chunked : Bool
  encoding : ContentEncoding

/- ---------------- encoder selection ---------------- -/

/-- `streaming_encoding(buf, version, req)` of `writer.rs`: selects the
transfer framer for a Streaming/Actor body that is not an upgrade,
mutating the request headers.  Returns the framer kind, the updated
request and the emitted log events. -/
def streaming_encoding (version : Version) (req : ClientRequest) :
    TransferKind × ClientRequest × List LogEvent :=
  if req.chunked then
    -- Enable transfer encoding
    let req := { req with headers := hRemove req.headers CONTENT_LENGTH }
    if version = Version.HTTP_2 then
      (.eof, { req with headers := hRemove req.headers TRANSFER_ENCODING }, [])
    else
      (.chunked false,
       { req with headers := hInsert req.headers TRANSFER_ENCODING "chunked" }, [])
  else
    -- if Content-Length is specified, then use it as length hint
    let parsed : Option Nat × Bool × List LogEvent :=
      match hGet req.headers CONTENT_LENGTH with
      | some s =>
          match parseU64 s with
          | some n => (some n, false, [])
          | none => (none, false, [.illegalContentLength s])
      | none => (none, true, [])
    let len := parsed.1
    let chunked := parsed.2.1
    let logs := parsed.2.2
    if !chunked then
      match len with
      | some n => (.length n, req, logs)
      | none => (.eof, req, logs)
    else
      -- Enable transfer encoding
      match version with
      | .HTTP_11 =>
          (.chunked false,
           { req with headers := hInsert req.headers TRANSFER_ENCODING "chunked" },
           logs)
      | _ =>
          (.eof, { req with headers := hRemove req.headers TRANSFER_ENCODING },
           logs)

/-- `content_encoder(buf, req)` of `writer.rs`: the Encoder Selector.
Takes the request, replaces its body, mutates its headers, and returns
the constructed Content Encoder together with the updated request and the
emitted log events.  The external codecs are supplied through `cs`; the
synchronous compression of a Binary body discards the codec's error flag,
mirroring the source's `let _ = enc.write(..); let _ = enc.write_eof();`
(marked `// TODO return error!`). -/
def content_encoder (cs : Codecs) (req0 : ClientRequest) :
    ContentEncoder × ClientRequest × List LogEvent :=
  let version := req0.version
  let body := req0.body
  let req := { req0 with body := Body.Empty }
  let encoding := req.encoding
  let sel : TransferKind × ContentEncoding × Body × ClientRequest × List LogEvent :=
    match body with
    | .Empty =>
        (.length 0, encoding, .Empty,
         { req with headers := hRemove req.headers CONTENT_LENGTH }, [])
    | .Binary bytes =>
        let comp : List Nat × ContentEncoding × ClientRequest :=
          if encoding.is_compression then
            let out := (cs.run encoding bytes).1
            (out, .Identity,
             { req with headers :=
                 hInsert req.headers CONTENT_ENCODING encoding.as_str })
          else (bytes, encoding, req)
        let bytes := comp.1
        let encoding := comp.2.1
        let req := comp.2.2
        (.eof, encoding, .Binary bytes,
         { req with headers :=
             hInsert req.headers CONTENT_LENGTH (toString bytes.length) }, [])
    | .Streaming | .Actor =>
        if req.upgrade then
          let step1 : ClientRequest × List LogEvent :=
            if version = Version.HTTP_2 then (req, [.upgradeForbiddenHttp2])
            else ({ req with headers := hInsert req.headers CONNECTION "upgrade" }, [])
          let req := step1.1
          let logs := step1.2
          let step2 : ContentEncoding × ClientRequest :=
            if encoding ≠ ContentEncoding.Identity then
              (.Identity, { req with headers := hRemove req.headers CONTENT_ENCODING })
            else (encoding, req)
          (.eof, step2.1, body, step2.2, logs)
        else
          let se := streaming_encoding version req
          (se.1, encoding, body, se.2.1, se.2.2)
  let transfer := sel.1
  let encoding := sel.2.1
  let body := sel.2.2.1
  let req := sel.2.2.2.1
  let logs := sel.2.2.2.2
  let req :=
    if encoding.is_compression then
      { req with headers := hInsert req.headers CONTENT_ENCODING encoding.as_str }
    else req
  let req := { req with body := body }
  (mkEncoder cs encoding transfer, req, logs)

/- ---------------- message writer ---------------- -/

/-- The writer's flag set (`bitflags! Flags`): four independent bits. -/
structure Flags where
  started : Bool
  upgrade : Bool
  keepalive : Bool
  disconnected : Bool
deriving DecidableEq, Repr

def Flags.empty : Flags :=
  ⟨false, false, false, false⟩

def LOW_WATERMARK : Nat := 1024
def HIGH_WATERMARK : Nat := 8 * LOW_WATERMARK

/-- `HttpClientWriter` state.  The shared output buffer is held here and
threaded explicitly through the encoder (see module header). -/
structure HttpClientWriter where
  flags : Flags
  written : Nat
  headers_size : Nat
  buffer : List Nat
  encoder : ContentEncoder
  low : Nat
  high : Nat

/-- `HttpClientWriter::new`: empty flags, zero counters, an
`Identity(TransferEncoding::eof(..))` encoder and the default watermarks. -/
def newWriter : HttpClientWriter :=
  { flags := Flags.empty
    written := 0
    headers_size := 0
    buffer := []
    encoder := .identity .eof
    low := LOW_WATERMARK
    high := HIGH_WATERMARK }

/-- `HttpClientWriter::disconnected`: `self.buffer.take()` — abandon the
buffered bytes.  Note that it does not touch `self.flags`. -/
def disconnectedOp (w : HttpClientWriter) : HttpClientWriter :=
  { w with buffer := [] }

/-- `HttpClientWriter::keepalive`. -/
def keepaliveB (w : HttpClientWriter) : Bool :=
  w.flags.keepalive && !w.flags.upgrade

/-- `HttpClientWriter::set_buffer_capacity`. -/
def setBufferCapacityOp (w : HttpClientWriter) (lw hw : Nat) : HttpClientWriter :=
  { w with low := lw, high := hw }

/-- One response of the nonblocking transport to a `stream.write` call:
`Ok(n)` (with `n ≤ len` by the io contract; `List.drop` saturates),
`Err(WouldBlock)`, or a hard error. -/
inductive TransportResp where
  | write (n : Nat)
  | wouldBlock
  | err (e : IOErr)
deriving Repr

/-- `HttpClientWriter::write_to_stream`: drain the buffer front to the
transport, one script entry per `stream.write` call.  Returns the updated
writer, the result (`none` when the finite script was exhausted with
bytes still buffered, i.e. the transport's further behaviour is
unspecified) and the unconsumed script. -/
def write_to_stream : HttpClientWriter → List TransportResp →
    HttpClientWriter × Option (Except IOErr WriterState) × List TransportResp
  | w, script =>
    if w.buffer.isEmpty then (w, some (.ok .Done), script)
    else
      match script with
      | [] => (w, none, [])
      | .write n :: rest =>
          if n = 0 then
            (disconnectedOp w, some (.ok .Done), rest)
          else
            write_to_stream { w with buffer := w.buffer.drop n } rest
      | .wouldBlock :: rest =>
          if w.buffer.length > w.high then (w, some (.ok .Pause), rest)
          else (w, some (.ok .Done), rest)
      | .err e :: rest => (w, some (.error e), rest)

/-- `HttpClientWriter::poll_completed(stream, shutdown)`: map the drain
result to the poll protocol.  The transport's `shutdown()` is modelled as
completing immediately, so the `shutdown` flag does not change the
result. -/
def pollCompleted (w : HttpClientWriter) (script : List TransportResp)
    (shutdown : Bool) : HttpClientWriter × Option (Except IOErr PollState) :=
  match write_to_stream w script with
  | (w', some (.ok .Done), _) =>
      (w', some (.ok (if shutdown then .ready else .ready)))
  | (w', some (.ok .Pause), _) => (w', some (.ok .notReady))
  | (w', some (.error e), _) => (w', some (.error e))
  | (w', none, _) => (w', none)

/-- `HttpClientWriter::start(msg)`: set `STARTED`, run the Encoder
Selector, render the request head (status line, headers, `date` header
when absent — `date` supplies the Date Cache bytes), record
`headers_size`, set `UPGRADE` when requested, and feed a fully-in-memory
Binary body straight through the encoder.  Returns the updated writer,
the updated request (body taken when Binary), the log events and the
error, if any (state up to the failure point is kept, as with `&mut
self`). -/
def startOp (cs : Codecs) (date : List Nat) (w : HttpClientWriter)
    (msg0 : ClientRequest) :
    HttpClientWriter × ClientRequest × List LogEvent × Option IOErr :=
  let flags1 := { w.flags with started := true }
  let sel := content_encoder cs msg0
  let encoder := sel.1
  let msg := sel.2.1
  let logs := sel.2.2
  let flags2 := if msg.upgrade then { flags1 with upgrade := true } else flags1
  let head :=
    strBytes (msg.method ++ " " ++ msg.path ++ " " ++ msg.version.render ++ "\r\n")
    ++ msg.headers.foldl
        (fun acc kv =>
          acc ++ strBytes kv.1 ++ strBytes ": " ++ strBytes kv.2 ++ CRLF) []
    ++ (if hContains msg.headers DATE then CRLF
        else strBytes "date: " ++ date ++ CRLF ++ CRLF)
  let buffer := w.buffer ++ head
  let headers_size := buffer.length
  match msg.body with
  | .Binary bytes =>
      let written := w.written + bytes.length
      match encoder.writeB buffer bytes with
      | .ok (encoder', buffer') =>
          ({ w with flags := flags2, written := written,
                    headers_size := headers_size, buffer := buffer',
                    encoder := encoder' },
           { msg with body := .Empty }, logs, none)
      | .error e =>
          ({ w with flags := flags2, written := written,
                    headers_size := headers_size, buffer := buffer,
                    encoder := encoder },
           { msg with body := .Empty }, logs, some e)
  | _ =>
      ({ w with flags := flags2, headers_size := headers_size,
                buffer := buffer, encoder := encoder },
       msg, logs, none)

/-- `HttpClientWriter::write(payload)`: always add `payload.len()` to
`written`; unless `DISCONNECTED` is set, append the payload (raw when
`UPGRADE` is set, through the encoder otherwise); then signal `Pause` iff
the buffered bytes exceed the high watermark. -/
def writeOp (w : HttpClientWriter) (payload : List Nat) :
    HttpClientWriter × Except IOErr WriterState :=
  let w1 := { w with written := w.written + payload.length }
  let step : Except IOErr HttpClientWriter :=
    if w1.flags.disconnected then .ok w1
    else if w1.flags.upgrade then .ok { w1 with buffer := w1.buffer ++ payload }
    else
      match w1.encoder.writeB w1.buffer payload with
      | .ok (e, b) => .ok { w1 with encoder := e, buffer := b }
      | .error err => .error err
  match step with
  | .ok w2 =>
      (w2, .ok (if w2.buffer.length > w2.high then .Pause else .Done))
  | .error e => (w1, .error e)

/-- `HttpClientWriter::write_eof`: finalize the encoder, then succeed only
if it confirms EOF, otherwise return the "Last payload item, but eof is
not reached" error. -/
def writeEofOp (w : HttpClientWriter) : HttpClientWriter × Option IOErr :=
  match w.encoder.writeEofB w.buffer with
  | .ok (e, b) =>
      let w' := { w with encoder := e, buffer := b }
      if w'.encoder.isEof then (w', none)
      else (w', some (.other "Last payload item, but eof is not reached"))
  | .error err => (w, some err)

/-- Whether finalizing the encoder over the given buffer succeeds and
leaves an encoder that confirms EOF (spec §4.2: "`is_eof()`: true only
once the sink confirms no further bytes are owed"). -/
def confirmsEof (e : ContentEncoder) (buf : List Nat) : Bool :=
  match e.writeEofB buf with
  | .ok (e', _) => e'.isEof
  | .error _ => false

/-- One operation of the writer's public interface, for reachability
arguments over operation sequences. -/
inductive WriterOp where
  | start (cs : Codecs) (date : List Nat) (msg : ClientRequest)
  | write (payload : List Nat)
  | writeEof
  | poll (script : List TransportResp) (shutdown : Bool)
  | disconnect
  | setCapacity (lw hw : Nat)

/-- Apply one operation, keeping the writer state (results discarded). -/
def applyOp (w : HttpClientWriter) : WriterOp → HttpClientWriter
  | .start cs date msg => (startOp cs date w msg).1
  | .write p => (writeOp w p).1
  | .writeEof => (writeEofOp w).1
  | .poll script sd => (pollCompleted w script sd).1
  | .disconnect => disconnectedOp w
  | .setCapacity lw hw => setBufferCapacityOp w lw hw

/- ---------------- header map lemmas ---------------- -/

theorem hGet_hRemove_self (m : Headers) (k : String) :
    hGet (hRemove m k) k = none := by
  induction m with
  | nil => rfl
  | cons p rest ih =>
      by_cases h : p.1 = k <;> simp [hRemove, hGet, h, ih]

theorem hGet_hRemove_ne (m : Headers) (k k' : String) (h : k' ≠ k) :
    hGet (hRemove m k) k' = hGet m k' := by
  have hkk : ¬(k = k') := fun e => h e.symm
  induction m with
  | nil => rfl
  | cons p rest ih =>
      by_cases hp : p.1 = k
      · have hne : p.1 ≠ k' := by rw [hp]; exact fun e => h e.symm
        simp [hRemove, hGet, hp, hne, ih, hkk]
      · by_cases hp' : p.1 = k' <;> simp [hRemove, hGet, hp, hp', ih, hkk, h]

theorem hGet_append_left (a b : Headers) (k : String) (v : String)
    (h : hGet a k = some v) : hGet (a ++ b) k = some v := by
  induction a with
  | nil => simp [hGet] at h
  | cons p rest ih =>
      by_cases hp : p.1 = k <;> simp_all [hGet]

theorem hGet_append_right (a b : Headers) (k : String)
    (h : hGet a k = none) : hGet (a ++ b) k = hGet b k := by
  induction a with
  | nil => rfl
  | cons p rest ih =>
      by_cases hp : p.1 = k <;> simp_all [hGet]

theorem hGet_hInsert_self (m : Headers) (k v : String) :
    hGet (hInsert m k v) k = some v := by
  unfold hInsert
  rw [hGet_append_right _ _ _ (hGet_hRemove_self m k)]
  simp [hGet]

theorem hGet_hInsert_ne (m : Headers) (k v k' : String) (h : k' ≠ k) :
    hGet (hInsert m k v) k' = hGet m k' := by
  unfold hInsert
  rcases hc : hGet (hRemove m k) k' with _ | w
  · have hkk : ¬(k = k') := fun e => h e.symm
    rw [hGet_append_right _ _ _ hc, hGet_hRemove_ne m k k' h] at *
    simp [hGet, hkk, hc]
  · rw [hGet_append_left _ _ _ _ hc, ← hGet_hRemove_ne m k k' h, hc]

theorem hContains_hInsert_ne (m : Headers) (k v k' : String) (h : k' ≠ k) :
    hContains (hInsert m k v) k' = hContains m k' := by
  unfold hContains
  rw [hGet_hInsert_ne m k v k' h]

theorem hContains_hRemove_self (m : Headers) (k : String) :
    hContains (hRemove m k) k = false := by
  unfold hContains
  rw [hGet_hRemove_self]
  rfl

/- ---------------- shared concrete instances ---------------- -/

/-- A trivial codec behaviour for concrete evaluations: every codec passes
bytes through unchanged and reports no error. -/
def idCodecs : Codecs :=
  { run := fun _ b => (b, false)
    transform := fun _ b => b
    trailer := fun _ => [] }

/- ---------------- claim C6 ---------------- -/

/-- Claim C6: for every Binary body with a requested compression encoding
A, after the Encoder Selector runs the `Content-Length` header equals the
decimal ASCII length of the compressed bytes, `Content-Encoding` equals
A, the body payload has been replaced by the compressed bytes, the
working encoding is downgraded to Identity, and the transfer mode is
Eof. -/
theorem c6_binary_compression (cs : Codecs) (req : ClientRequest)
    (bytes : List Nat) (hb : req.body = .Binary bytes)
    (hc : req.encoding.is_compression = true) :
    hGet (content_encoder cs req).2.1.headers CONTENT_LENGTH
        = some (toString (cs.run req.encoding bytes).1.length) ∧
    hGet (content_encoder cs req).2.1.headers CONTENT_ENCODING
        = some req.encoding.as_str ∧
    (content_encoder cs req).2.1.body = .Binary (cs.run req.encoding bytes).1 ∧
    (content_encoder cs req).1.isIdentity = true ∧
    (content_encoder cs req).1.sink = .eof := by
  simp only [content_encoder, hb, hc, if_true, mkEncoder]
  simp [ContentEncoding.is_compression, hGet_hInsert_self,
    hGet_hInsert_ne _ CONTENT_LENGTH _ CONTENT_ENCODING (by decide),
    ContentEncoder.isIdentity, ContentEncoder.sink]

/-- Witness for C6 at a concrete request (Deflate compression of
`[1,2,3,4,5]` producing `[7,8]`). -/
theorem c6_witness :
    let cs : Codecs := { idCodecs with run := fun _ _ => ([7, 8], false) }
    let req : ClientRequest :=
      { method := "POST", path := "/x", version := .HTTP_11, headers := []
        body := .Binary [1, 2, 3, 4, 5], upgrade := false, chunked := false
        encoding := .Deflate }
    hGet (content_encoder cs req).2.1.headers CONTENT_LENGTH = some "2" ∧
    hGet (content_encoder cs req).2.1.headers CONTENT_ENCODING = some "deflate" ∧
    (content_encoder cs req).2.1.body = .Binary [7, 8] ∧
    (content_encoder cs req).1.isIdentity = true ∧
    (content_encoder cs req).1.sink = .eof :=
  c6_binary_compression _ _ [1, 2, 3, 4, 5] rfl rfl

/- ---------------- upgrade path of the selector ---------------- -/

/-- Characterization of `content_encoder` on a Streaming/Actor body with
`upgrade = true`: the encoder is `Identity(eof)`, the body is restored
unchanged, `Connection: upgrade` is inserted unless the version is
HTTP/2 (which instead logs), and `Content-Encoding` is removed when the
requested encoding was not Identity. -/
theorem content_encoder_upgrade_spec (cs : Codecs) (req : ClientRequest)
    (hb : req.body = .Streaming ∨ req.body = .Actor) (hu : req.upgrade = true) :
    content_encoder cs req =
      (.identity .eof,
       { req with headers :=
           (if req.encoding ≠ ContentEncoding.Identity then
              hRemove (if req.version = .HTTP_2 then req.headers
                       else hInsert req.headers CONNECTION "upgrade")
                CONTENT_ENCODING
            else (if req.version = .HTTP_2 then req.headers
                  else hInsert req.headers CONNECTION "upgrade")) },
       if req.version = .HTTP_2 then [.upgradeForbiddenHttp2] else []) := by
  rcases hb with hb | hb <;>
  · by_cases hv : req.version = Version.HTTP_2 <;>
      by_cases he : req.encoding = ContentEncoding.Identity <;>
        simp [content_encoder, hb, hu, hv, he, mkEncoder,
          ContentEncoding.is_compression]

/- ---------------- claim C2 ---------------- -/

/-- Claim C2 counterexample: a Binary body with `upgrade = true` and a
requested Gzip encoding is still compressed (the payload is transformed)
and the header map after selection does contain `Content-Encoding: gzip`,
contradicting "regardless of the body shape ... the request's header map
after selection contains no Content-Encoding header". -/
theorem c2_counterexample :
    let cs : Codecs := { idCodecs with run := fun _ _ => ([0], false) }
    let req : ClientRequest :=
      { method := "GET", path := "/", version := .HTTP_11, headers := []
        body := .Binary [65, 66, 67], upgrade := true, chunked := false
        encoding := .Gzip }
    req.upgrade = true ∧
    hGet (content_encoder cs req).2.1.headers CONTENT_ENCODING = some "gzip" ∧
    (content_encoder cs req).2.1.body = .Binary [0] :=
  ⟨rfl, rfl, rfl⟩

/-- Claim C2 (amended): for every request with a Streaming or Actor body
and `upgrade = true`, the selected encoder is Identity (the streaming body
is never compressed — it is restored unchanged), and when the requested
encoding is not Identity the Content-Encoding header is removed; Binary
bodies, by contrast, are compressed and carry Content-Encoding even when
upgraded, and a caller-supplied Content-Encoding header survives when the
requested encoding is Identity. -/
theorem c2_upgrade_streaming_identity (cs : Codecs) (req : ClientRequest)
    (hb : req.body = .Streaming ∨ req.body = .Actor) (hu : req.upgrade = true) :
    (content_encoder cs req).1.isIdentity = true ∧
    (content_encoder cs req).2.1.body = req.body ∧
    (req.encoding ≠ ContentEncoding.Identity →
        hContains (content_encoder cs req).2.1.headers CONTENT_ENCODING = false) := by
  rw [content_encoder_upgrade_spec cs req hb hu]
  refine ⟨rfl, rfl, fun he => ?_⟩
  simp [he, hContains_hRemove_self]

/-- Witness for the amended C2 at a concrete upgraded streaming request
requesting Gzip. -/
theorem c2_witness :
    let req : ClientRequest :=
      { method := "GET", path := "/", version := .HTTP_11
        headers := [(CONTENT_ENCODING, "gzip")], body := .Streaming
        upgrade := true, chunked := false, encoding := .Gzip }
    (content_encoder idCodecs req).1.isIdentity = true ∧
    (content_encoder idCodecs req).2.1.body = req.body ∧
    hContains (content_encoder idCodecs req).2.1.headers CONTENT_ENCODING = false := by
  refine ⟨(c2_upgrade_streaming_identity idCodecs _ (Or.inl rfl) rfl).1,
          (c2_upgrade_streaming_identity idCodecs _ (Or.inl rfl) rfl).2.1,
          (c2_upgrade_streaming_identity idCodecs _ (Or.inl rfl) rfl).2.2 (by decide)⟩

/- ---------------- claim C9 ---------------- -/

/-- Claim C9: for every Streaming or Actor body with `upgrade = true`,
`start` returns success; on HTTP/2 (the version forbidding upgrade) a
warning is logged and the `Connection` header is left untouched (no
`Connection: upgrade` inserted), while on every other version
`Connection: upgrade` is inserted. -/
theorem c9_upgrade_version (cs : Codecs) (date : List Nat)
    (w : HttpClientWriter) (req : ClientRequest)
    (hb : req.body = .Streaming ∨ req.body = .Actor) (hu : req.upgrade = true) :
    (startOp cs date w req).2.2.2 = none ∧
    (req.version = .HTTP_2 →
        LogEvent.upgradeForbiddenHttp2 ∈ (startOp cs date w req).2.2.1 ∧
        hGet (startOp cs date w req).2.1.headers CONNECTION
          = hGet req.headers CONNECTION) ∧
    (req.version ≠ .HTTP_2 →
        hGet (startOp cs date w req).2.1.headers CONNECTION = some "upgrade") := by
  have hspec := content_encoder_upgrade_spec cs req hb hu
  rcases hb with hb | hb <;>
  · by_cases hv : req.version = Version.HTTP_2 <;>
      by_cases he : req.encoding = ContentEncoding.Identity <;>
        simp [startOp, hspec, hb, hu, hv, he, hGet_hInsert_self,
          hGet_hRemove_ne _ CONTENT_ENCODING CONNECTION (by decide),
          hGet_hInsert_ne _ CONNECTION _ CONTENT_ENCODING (by decide)]

/-- Witness for C9 at a concrete HTTP/2 upgraded streaming request. -/
theorem c9_witness :
    let req : ClientRequest :=
      { method := "GET", path := "/", version := .HTTP_2
        headers := [(CONNECTION, "keep-alive")], body := .Streaming
        upgrade := true, chunked := false, encoding := .Gzip }
    (startOp idCodecs [] newWriter req).2.2.2 = none ∧
    (LogEvent.upgradeForbiddenHttp2 ∈ (startOp idCodecs [] newWriter req).2.2.1 ∧
     hGet (startOp idCodecs [] newWriter req).2.1.headers CONNECTION
       = hGet req.headers CONNECTION) := by
  refine ⟨(c9_upgrade_version idCodecs [] newWriter _ (Or.inl rfl) rfl).1,
          (c9_upgrade_version idCodecs [] newWriter _ (Or.inl rfl) rfl).2.1 rfl⟩

theorem mkEncoder_sink (cs : Codecs) (e : ContentEncoding) (t : TransferKind) :
    (mkEncoder cs e t).sink = t := by
  cases e <;> rfl

/- ---------------- claim C3 ---------------- -/

/-- Claim C3 counterexample: on HTTP/1.1 (a version supporting chunked
framing), a Streaming body with `chunked = false` and the unparsable
`Content-Length: abc` yields the `Eof` transfer mode with no
`Transfer-Encoding` header — NOT the chunked fallback used when the
header is absent, contradicting "falls back to the same unknown-length
handling used when the header is absent". -/
theorem c3_counterexample :
    let req : ClientRequest :=
      { method := "POST", path := "/x", version := .HTTP_11
        headers := [(CONTENT_LENGTH, "abc")], body := .Streaming
        upgrade := false, chunked := false, encoding := .Identity }
    req.version = .HTTP_11 ∧
    (content_encoder idCodecs req).1.sink = .eof ∧
    hGet (content_encoder idCodecs req).2.1.headers TRANSFER_ENCODING = none ∧
    (content_encoder idCodecs req).2.2 = [.illegalContentLength "abc"] :=
  ⟨rfl, rfl, rfl, rfl⟩

/-- Claim C3 (amended): for every Streaming or Actor body with
`chunked = false` whose `Content-Length` header is present but does not
parse as a nonnegative integer, the Encoder Selector logs the malformed
value and does not fail the request, but uses the `Eof` transfer mode
without modifying the `Transfer-Encoding` header and leaves the malformed
`Content-Length` in place (it does not fall back to the absent-header
chunked handling). -/
theorem c3_malformed_length_eof (cs : Codecs) (req : ClientRequest) (s : String)
    (hb : req.body = .Streaming ∨ req.body = .Actor)
    (hch : req.chunked = false) (hu : req.upgrade = false)
    (hcl : hGet req.headers CONTENT_LENGTH = some s)
    (hparse : parseU64 s = none) :
    (content_encoder cs req).1.sink = .eof ∧
    hGet (content_encoder cs req).2.1.headers TRANSFER_ENCODING
      = hGet req.headers TRANSFER_ENCODING ∧
    hGet (content_encoder cs req).2.1.headers CONTENT_LENGTH = some s ∧
    (content_encoder cs req).2.2 = [.illegalContentLength s] := by
  rcases hb with hb | hb <;>
  · by_cases he : req.encoding.is_compression <;>
      simp [content_encoder, streaming_encoding, hb, hch, hu, hcl, hparse, he,
        mkEncoder_sink,
        hGet_hInsert_ne _ CONTENT_ENCODING _ TRANSFER_ENCODING (by decide),
        hGet_hInsert_ne _ CONTENT_ENCODING _ CONTENT_LENGTH (by decide)]

/-- Witness for the amended C3 at a concrete request with
`Content-Length: abc` on HTTP/1.1. -/
theorem c3_witness :
    let req : ClientRequest :=
      { method := "POST", path := "/x", version := .HTTP_11
        headers := [(CONTENT_LENGTH, "abc"), (TRANSFER_ENCODING, "x")]
        body := .Actor, upgrade := false, chunked := false
        encoding := .Gzip }
    (content_encoder idCodecs req).1.sink = .eof ∧
    hGet (content_encoder idCodecs req).2.1.headers TRANSFER_ENCODING
      = hGet req.headers TRANSFER_ENCODING ∧
    hGet (content_encoder idCodecs req).2.1.headers CONTENT_LENGTH = some "abc" ∧
    (content_encoder idCodecs req).2.2 = [.illegalContentLength "abc"] :=
  c3_malformed_length_eof idCodecs _ "abc" (Or.inr rfl) rfl rfl rfl rfl

/- ---------------- claim C5 ---------------- -/

/-- Claim C5: for every Streaming or Actor body with `chunked = true` and
`upgrade = false`, the Encoder Selector removes `Content-Length`; on
HTTP/2 — the version lacking chunked framing support, whose native
framing handles boundaries — it removes any `Transfer-Encoding` header
and selects the `Eof` transfer mode, and on every other version it sets
`Transfer-Encoding: chunked` and selects the `Chunked` transfer mode. -/
theorem c5_chunked_intent (cs : Codecs) (req : ClientRequest)
    (hb : req.body = .Streaming ∨ req.body = .Actor)
    (hch : req.chunked = true) (hu : req.upgrade = false) :
    hContains (content_encoder cs req).2.1.headers CONTENT_LENGTH = false ∧
    (req.version = .HTTP_2 →
        (content_encoder cs req).1.sink = .eof ∧
        hContains (content_encoder cs req).2.1.headers TRANSFER_ENCODING = false) ∧
    (req.version ≠ .HTTP_2 →
        (content_encoder cs req).1.sink = .chunked false ∧
        hGet (content_encoder cs req).2.1.headers TRANSFER_ENCODING
          = some "chunked") := by
  rcases hb with hb | hb <;>
  · by_cases hv : req.version = Version.HTTP_2 <;>
      by_cases he : req.encoding.is_compression <;>
        simp [content_encoder, streaming_encoding, hb, hch, hu, hv, he,
          mkEncoder_sink, hContains, hGet_hRemove_self, hGet_hInsert_self,
          hGet_hInsert_ne _ CONTENT_ENCODING _ CONTENT_LENGTH (by decide),
          hGet_hInsert_ne _ CONTENT_ENCODING _ TRANSFER_ENCODING (by decide),
          hGet_hInsert_ne _ TRANSFER_ENCODING _ CONTENT_LENGTH (by decide),
          hGet_hRemove_ne _ TRANSFER_ENCODING CONTENT_LENGTH (by decide)]

/-- Witness for C5 at concrete HTTP/1.0 and HTTP/2 requests with
`chunked = true`. -/
theorem c5_witness :
    let req : ClientRequest :=
      { method := "POST", path := "/x", version := .HTTP_10
        headers := [(CONTENT_LENGTH, "7"), (TRANSFER_ENCODING, "x")]
        body := .Actor, upgrade := false, chunked := true
        encoding := .Identity }
    hContains (content_encoder idCodecs req).2.1.headers CONTENT_LENGTH = false ∧
    (content_encoder idCodecs req).1.sink = .chunked false ∧
    hGet (content_encoder idCodecs req).2.1.headers TRANSFER_ENCODING
      = some "chunked" := by
  refine ⟨(c5_chunked_intent idCodecs _ (Or.inr rfl) rfl rfl).1,
          ((c5_chunked_intent idCodecs _ (Or.inr rfl) rfl rfl).2.2 (by decide)).1,
          ((c5_chunked_intent idCodecs _ (Or.inr rfl) rfl rfl).2.2 (by decide)).2⟩

/- ---------------- claim C1 ---------------- -/

/-- Claim C1 code divergence, evaluated at the failing input: buffer
`[9,9,9]`, transport script `[Ok(0)]`, then `write([1,2,3])`.  After the
zero-length successful write, `poll_completed` does discard the buffered
bytes and reports completion — but `disconnected()` never sets the
`DISCONNECTED` flag (the flag is declared and tested in `write` yet
inserted nowhere), so the subsequent `write` adds 3 to `written` AND
appends 3 bytes to the output buffer, contrary to the claim that zero
bytes are appended. -/
theorem c1_zero_write_divergence :
    (pollCompleted (writeOp newWriter [9, 9, 9]).1 [.write 0] false).2
      = some (.ok .ready) ∧
    (pollCompleted (writeOp newWriter [9, 9, 9]).1 [.write 0] false).1.buffer
      = [] ∧
    (pollCompleted (writeOp newWriter [9, 9, 9]).1
        [.write 0] false).1.flags.disconnected = false ∧
    (writeOp (pollCompleted (writeOp newWriter [9, 9, 9]).1 [.write 0] false).1
        [1, 2, 3]).1.buffer = [1, 2, 3] ∧
    (writeOp (pollCompleted (writeOp newWriter [9, 9, 9]).1 [.write 0] false).1
        [1, 2, 3]).1.written = 6 :=
  ⟨rfl, rfl, rfl, rfl, rfl⟩

/- ---------------- claim C4 ---------------- -/

/-- Claim C4, evaluated at the failing input: a Binary body `[1,2,3]`
requesting Deflate with a codec that reports an error (and emits no
bytes).  The selector discards the error (`let _ = enc.write(..); let _ =
enc.write_eof();`, marked `// TODO return error!` in the source), so
`start` reports success, the body is silently replaced by the empty codec
output and `Content-Length: 0` is emitted — the encoding failure is never
surfaced to the caller. -/
theorem c4_codec_error_swallowed :
    let cs : Codecs := { idCodecs with run := fun _ _ => ([], true) }
    let req : ClientRequest :=
      { method := "POST", path := "/x", version := .HTTP_11, headers := []
        body := .Binary [1, 2, 3], upgrade := false, chunked := false
        encoding := .Deflate }
    (cs.run .Deflate [1, 2, 3]).2 = true ∧
    (startOp cs [] newWriter req).2.2.2 = none ∧
    hGet (startOp cs [] newWriter req).2.1.headers CONTENT_LENGTH = some "0" ∧
    hGet (startOp cs [] newWriter req).2.1.headers CONTENT_ENCODING
      = some "deflate" :=
  ⟨rfl, rfl, rfl, rfl⟩

/- ---------------- claim C7 ---------------- -/

/-- Claim C7: a successful `write(payload)` returns `Pause` iff the
buffered byte count after the write exceeds the high watermark (else
`Done`); and when the transport reports would-block with bytes still
buffered, `poll_completed` reports `NotReady` iff the buffered count
exceeds the high watermark and `Ready` otherwise, leaving the writer (and
its buffered bytes) untouched. -/
theorem c7_backpressure (w w' : HttpClientWriter) (payload : List Nat)
    (r : WriterState) (rest : List TransportResp) :
    (writeOp w payload = (w', .ok r) →
        (r = .Pause ↔ w'.buffer.length > w'.high)) ∧
    (w.buffer ≠ [] →
        pollCompleted w (.wouldBlock :: rest) false =
          (w, some (.ok (if w.buffer.length > w.high
                         then .notReady else .ready)))) := by
  constructor
  · intro h
    unfold writeOp at h
    dsimp only [] at h
    split at h
    · simp only [Prod.mk.injEq, Except.ok.injEq] at h
      obtain ⟨h1, h2⟩ := h
      subst h1
      subst h2
      split <;> simp_all
    · simp at h
  · intro hne
    have hemp : w.buffer.isEmpty = false := by
      simpa [List.isEmpty_iff] using hne
    by_cases hw : w.buffer.length > w.high <;>
      simp [pollCompleted, write_to_stream, hemp, hw]

/-- Witness for C7: a writer with 3 buffered bytes and a high watermark
of 2 (set through `set_buffer_capacity`), written into and polled against
a would-block transport. -/
theorem c7_witness :
    let wb := setBufferCapacityOp newWriter 1 2
    let w1 := (writeOp wb [9, 9, 9]).1
    (WriterState.Pause = .Pause ↔ w1.buffer.length > w1.high) ∧
    pollCompleted w1 [.wouldBlock] false = (w1, some (.ok .notReady)) :=
  ⟨(c7_backpressure (setBufferCapacityOp newWriter 1 2)
      (writeOp (setBufferCapacityOp newWriter 1 2) [9, 9, 9]).1 [9, 9, 9]
      WriterState.Pause []).1 rfl,
   (c7_backpressure (writeOp (setBufferCapacityOp newWriter 1 2) [9, 9, 9]).1
      (writeOp (setBufferCapacityOp newWriter 1 2) [9, 9, 9]).1 [] WriterState.Done
      []).2 (by decide)⟩

/- ---------------- claim C8 ---------------- -/

/-- Claim C8: `write_eof()` finalizes the active Content Encoder and
returns success exactly when the finalized encoder confirms EOF; in
particular, with a declared fixed length that was never fully satisfied
(an Identity encoder over `Length(r)`, `r ≠ 0`) it returns the
incomplete-body error. -/
theorem c8_write_eof (w : HttpClientWriter) (r : Nat) :
    ((writeEofOp w).2 = none ↔ confirmsEof w.encoder w.buffer = true) ∧
    (w.encoder = .identity (.length r) → r ≠ 0 →
        (writeEofOp w).2 = some .incompleteBody) := by
  constructor
  · unfold writeEofOp confirmsEof
    rcases hs : w.encoder.writeEofB w.buffer with e | ⟨e', b'⟩
    · simp
    · by_cases he : (ContentEncoder.isEof e') = true <;> simp [he]
  · intro henc hr
    unfold writeEofOp
    rw [henc]
    simp [ContentEncoder.writeEofB, TransferKind.writeEofB, hr]

/-- Witness for C8: an Identity encoder over `Length(2)` with an empty
buffer cannot confirm EOF, and `write_eof` returns the incomplete-body
error. -/
theorem c8_witness :
    let wl : HttpClientWriter := { newWriter with encoder := .identity (.length 2) }
    ((writeEofOp wl).2 = none ↔ confirmsEof wl.encoder wl.buffer = true) ∧
    (writeEofOp wl).2 = some .incompleteBody :=
  ⟨(c8_write_eof { newWriter with encoder := .identity (.length 2) } 2).1,
   (c8_write_eof { newWriter with encoder := .identity (.length 2) } 2).2
     rfl (by decide)⟩

/- ---------------- claim C10 ---------------- -/

theorem write_to_stream_flags : ∀ (script : List TransportResp)
    (w : HttpClientWriter), (write_to_stream w script).1.flags = w.flags := by
  intro script
  induction script with
  | nil =>
      intro w
      rw [write_to_stream.eq_def]
      by_cases hb : w.buffer.isEmpty = true <;> simp [hb]
  | cons t rest ih =>
      intro w
      rw [write_to_stream.eq_def]
      by_cases hb : w.buffer.isEmpty = true
      · simp [hb]
      · simp only [hb, if_false, Bool.false_eq_true]
        cases t with
        | write n =>
            by_cases hn : n = 0 <;> simp [hn, disconnectedOp, ih]
        | wouldBlock =>
            by_cases hw : w.buffer.length > w.high <;> simp [hw]
        | err e => rfl

theorem pollCompleted_flags (w : HttpClientWriter) (script : List TransportResp)
    (sd : Bool) : (pollCompleted w script sd).1.flags = w.flags := by
  have hws := write_to_stream_flags script w
  unfold pollCompleted
  rcases ht : write_to_stream w script with ⟨w', res, rem⟩
  rw [ht] at hws
  rcases res with _ | res
  · exact hws
  · rcases res with e | st
    · exact hws
    · cases st <;> exact hws

theorem startOp_keepalive (cs : Codecs) (date : List Nat)
    (w : HttpClientWriter) (msg : ClientRequest) :
    (startOp cs date w msg).1.flags.keepalive = w.flags.keepalive := by
  unfold startOp
  dsimp only []
  repeat' split
  all_goals rfl

theorem writeOp_keepalive (w : HttpClientWriter) (p : List Nat) :
    (writeOp w p).1.flags.keepalive = w.flags.keepalive := by
  unfold writeOp
  dsimp only []
  by_cases hd : w.flags.disconnected = true
  · simp [hd]
  · by_cases hu : w.flags.upgrade = true
    · simp [hd, hu]
    · rcases hwb : ContentEncoder.writeB w.encoder w.buffer p with e | ⟨enc, b⟩ <;>
        simp [hd, hu, hwb]

theorem writeEofOp_keepalive (w : HttpClientWriter) :
    (writeEofOp w).1.flags.keepalive = w.flags.keepalive := by
  unfold writeEofOp
  dsimp only []
  repeat' split
  all_goals rfl

theorem applyOp_keepalive (w : HttpClientWriter) (op : WriterOp) :
    (applyOp w op).flags.keepalive = w.flags.keepalive := by
  cases op with
  | start cs date msg => exact startOp_keepalive cs date w msg
  | write p => exact writeOp_keepalive w p
  | writeEof => exact writeEofOp_keepalive w
  | poll script sd => exact congrArg Flags.keepalive (pollCompleted_flags w script sd)
  | disconnect => rfl
  | setCapacity lw hw => rfl

/-- Claim C10: no writer operation ever sets the `KEEPALIVE` flag, so for
every sequence of operations applied from a fresh writer, `keepalive()`
returns `false`. -/
theorem c10_keepalive_never (ops : List WriterOp) :
    keepaliveB (ops.foldl applyOp newWriter) = false := by
  have hinv : ∀ (l : List WriterOp) (w : HttpClientWriter),
      w.flags.keepalive = false → (l.foldl applyOp w).flags.keepalive = false := by
    intro l
    induction l with
    | nil => intro w hw; exact hw
    | cons op rest ih =>
        intro w hw
        rw [List.foldl_cons]
        exact ih _ ((applyOp_keepalive w op).trans hw)
  unfold keepaliveB
  rw [hinv ops newWriter rfl]
  rfl

end CW
